import Mathlib

/-!
Verification of the RepoGPT source-aware chunk annotation pipeline.

The development shallow-embeds `repogpt/crawler.py` and
`repogpt/parsers/treesitter_parser.py`.  Python strings are embedded as
`String` (sequences of characters); Python `None`-free fallible code is
embedded in `Option`/`Except`; Python dictionaries used as chunk metadata
are embedded as association lists.  Components that the crawler imports
from modules not present in the sources (`repogpt/parsers/base.py`,
`repogpt/parsers/treesitter.py`, the per-language parser modules) are
modelled from the specification and marked as such in their doc comments.
-/

namespace RepoGPT

/-- Decidable equality for `Except`, used to evaluate the embedded fallible
functions on concrete inputs. -/
instance {ε α : Type} [DecidableEq ε] [DecidableEq α] : DecidableEq (Except ε α) := fun x y =>
  match x, y with
  | .error a, .error b =>
    if h : a = b then .isTrue (by rw [h]) else .isFalse (fun hc => h (Except.error.inj hc))
  | .ok a, .ok b =>
    if h : a = b then .isTrue (by rw [h]) else .isFalse (fun hc => h (Except.ok.inj hc))
  | .error _, .ok _ => .isFalse (fun hc => Except.noConfusion hc)
  | .ok _, .error _ => .isFalse (fun hc => Except.noConfusion hc)

/-! ### Python string helpers -/

/-- Characters of Python `s[:n]` (slice with an int upper bound): for a
non-negative bound take the first `n` characters, for a negative bound
count from the end, clamping at the ends of the string. -/
def pySliceTo (l : List Char) (n : Int) : List Char :=
  if 0 ≤ n then l.take n.toNat else l.take (l.length - (-n).toNat)

/-- Python `s[a:b]` for non-negative bounds. -/
def pySlice (s : String) (a b : Nat) : String :=
  ⟨(s.data.take b).drop a⟩

/-- Auxiliary accumulator-based splitter for `pySplit`. -/
def pySplitAux (sep : Char) : List Char → List Char → List String
  | [], cur => [⟨cur.reverse⟩]
  | c :: rest, cur =>
    if c = sep then ⟨cur.reverse⟩ :: pySplitAux sep rest []
    else pySplitAux sep rest (c :: cur)

/-- Python `s.split(sep)` for a one-character separator: splits at every
occurrence, keeping empty pieces (`"a//b" ↦ ["a", "", "b"]`, `"" ↦ [""]`). -/
def pySplit (s : String) (sep : Char) : List String :=
  pySplitAux sep s.data []

/-- Whether the string starts with the given character. -/
def startsWithChar (s : String) (c : Char) : Bool :=
  match s.data with
  | [] => false
  | d :: _ => d = c

/-- Whether the string ends with the given character. -/
def endsWithChar (s : String) (c : Char) : Bool :=
  match s.data.getLast? with
  | none => false
  | some d => d = c

/-- Python `s.rfind(c)`: index of the last occurrence of `c`, `-1` if absent. -/
def lastIndexOf (l : List Char) (c : Char) : Int :=
  (List.range l.length).foldl (fun acc i => if l.getD i c = c then (i : Int) else acc) (-1)

/-- `os.path.splitext` (POSIX): split off the extension at the last dot of
the basename, unless every character of the basename before that dot is
itself a dot (so `".cfg"` has no extension while `"setup.cfg"` has `".cfg"`). -/
def splitext (p : String) : String × String :=
  let l := p.data
  let sepIndex := lastIndexOf l '/'
  let dotIndex := lastIndexOf l '.'
  if sepIndex < dotIndex then
    let d := dotIndex.toNat
    let fi := (sepIndex + 1).toNat
    if (List.range' fi (d - fi)).any (fun i => !(l.getD i '.' = '.')) then
      (⟨l.take d⟩, ⟨l.drop d⟩)
    else (p, "")
  else (p, "")

/-- `os.path.join` (POSIX, two components). -/
def os_path_join (a b : String) : String :=
  if startsWithChar b '/' then b
  else if a = "" ∨ endsWithChar a '/' then a ++ b
  else a ++ "/" ++ b

/-! ### Language table and metadata model (`crawler.py`) -/

/-- The splitter languages referenced by `LANG_MAPPING` (from
`langchain.text_splitter.Language`; only their identity matters here). -/
inductive Language where
  | PYTHON | CPP | JAVA | GO | JS | PHP | PROTO | RST | RUBY
  | SCALA | SWIFT | MARKDOWN | LATEX | HTML
deriving DecidableEq, Repr

/-- Lookup in an association list with string keys (Python `dict` lookup). -/
def lookupKey {α : Type} : List (String × α) → String → Option α
  | [], _ => none
  | (k, v) :: rest, key => if k = key then some v else lookupKey rest key

/-- `LANG_MAPPING` from `crawler.py` (extension → splitter language),
in source order; `'.py' in LANG_MAPPING` is key membership. -/
def LANG_MAPPING : List (String × Language) :=
  [(".py", .PYTHON), (".cpp", .CPP), (".cc", .CPP), (".cxx", .CPP),
   (".h", .CPP), (".hpp", .CPP), (".java", .JAVA), (".go", .GO),
   (".js", .JS), (".ts", .JS), (".php", .PHP), (".proto", .PROTO),
   (".rs", .RST), (".rb", .RUBY), (".scala", .SCALA), (".swift", .SWIFT),
   (".md", .MARKDOWN), (".tex", .LATEX), (".html", .HTML)]

/-- A metadata value of a chunk document (the values the pipeline stores
are ints and strings). -/
inductive MVal where
  | int (n : Int)
  | str (s : String)
deriving DecidableEq, Repr

/-- Python `d[key] = v` on a dict embedded as an association list:
an existing key is updated in place, a new key is appended. -/
def dictSet (m : List (String × MVal)) (key : String) (v : MVal) : List (String × MVal) :=
  if (lookupKey m key).isSome then
    m.map (fun p => if p.1 = key then (key, v) else p)
  else m ++ [(key, v)]

/-- Apply a fallible function to every list element, failing on the first
failure — the effect of a raised exception inside a Python `for` loop over
the chunks. -/
def mapOption {α β : Type} (f : α → Option β) : List α → Option (List β)
  | [] => some []
  | a :: l =>
    match f a with
    | none => none
    | some b =>
      match mapOption f l with
      | none => none
      | some bs => some (b :: bs)

/-- A langchain `Document`: page content plus a metadata dict. -/
structure Document where
  page_content : String
  metadata : List (String × MVal)
deriving DecidableEq, Repr

/-! ### Outline data model

Modelled from the spec: `SummaryPosition` and `FileSummary` are defined in
`repogpt/parsers/base.py`, which is not among the sources; spec §3 gives
`SymbolSpan = {name, start_line, end_line}` and
`FileOutline = {methods, classes}` with both lists initially empty. -/

/-- Modelled from the spec: one function or class span (`SymbolSpan`,
spec §3); `start_line`/`end_line` are syntax-tree rows (0-indexed). -/
structure SummaryPosition where
  name : String
  start_line : Nat
  end_line : Nat
deriving DecidableEq, Repr

/-- Modelled from the spec: the per-file outline (`FileOutline`, spec §3). -/
structure FileSummary where
  methods : List SummaryPosition
  classes : List SummaryPosition
deriving DecidableEq, Repr

/-- `FileSummary()` — a fresh, empty outline. -/
def FileSummary.empty : FileSummary := ⟨[], []⟩

/-! ### Closest-symbol resolver

Modelled from the spec: `TreeSitterParser.get_closest_method_class_in_snippet`
lives in `repogpt/parsers/treesitter.py`, which is not among the sources.
Spec §4.3: prefer the tightest span containing the chunk's start line, else
the nearest preceding span, else no context sentence; the result names the
matched method and/or class. -/

/-- Width of a span, used to pick the tightest containing span. -/
def spanRange (s : SummaryPosition) : Nat := s.end_line - s.start_line

/-- Modelled from the spec (§4.3 step 1): the tightest span containing `line`. -/
def tightestContaining (spans : List SummaryPosition) (line : Nat) : Option SummaryPosition :=
  (spans.filter (fun s => decide (s.start_line ≤ line ∧ line ≤ s.end_line))).foldl
    (fun best s =>
      match best with
      | none => some s
      | some b => if spanRange s < spanRange b then some s else some b) none

/-- Modelled from the spec (§4.3 step 2): the span with the greatest
`start_line` still at or before `line`. -/
def nearestPreceding (spans : List SummaryPosition) (line : Nat) : Option SummaryPosition :=
  (spans.filter (fun s => decide (s.start_line ≤ line))).foldl
    (fun best s =>
      match best with
      | none => some s
      | some b => if b.start_line ≤ s.start_line then some s else some b) none

/-- Modelled from the spec (§4.3): containment first, preceding-span fallback. -/
def resolveSymbol (spans : List SummaryPosition) (line : Nat) : Option SummaryPosition :=
  match tightestContaining spans line with
  | some s => some s
  | none => nearestPreceding spans line

/-- Modelled from the spec (§4.3 step 4): the phrasing of one matched symbol. -/
def symbolSentence (kind : String) (s : SummaryPosition) : String :=
  "a " ++ kind ++ " named " ++ s.name ++ " starting on line " ++ toString s.start_line ++ "."

/-- Modelled from the spec: `get_closest_method_class_in_snippet` (spec §4.3) —
resolve `methods` and `classes` independently against the chunk's start line
and merge the sentences; the empty string when neither resolves. -/
def get_closest_method_class_in_snippet (fs : FileSummary) (start_line _end_line : Nat) : String :=
  match resolveSymbol fs.methods start_line, resolveSymbol fs.classes start_line with
  | some m, some c => symbolSentence "method" m ++ " " ++ symbolSentence "class" c
  | some m, none => symbolSentence "method" m
  | none, some c => symbolSentence "class" c
  | none, none => ""

/-! ### Line resolver and chunk annotator (`crawler.py`, `process_file`) -/

/-- The line resolver of `process_file` (crawler.py lines 101–102):
`starting_line = file_doc.page_content[:start_index].count('\n') + 1` and
`ending_line = starting_line + doc.page_content.count('\n')`. -/
def resolveLines (fileText : String) (start_index : Int) (chunkText : String) : Nat × Nat :=
  let starting_line := (pySliceTo fileText.data start_index).count '\n' + 1
  (starting_line, starting_line + chunkText.data.count '\n')

/-- The chunk text composed by `process_file` (crawler.py lines 110–115);
the adjacent f-string literals of the source concatenate into one template. -/
def annotationText (dir_path file_name context : String)
    (starting_line ending_line : Nat) (chunkText : String) : String :=
  "The following code snippet is from a file at location " ++
  os_path_join dir_path file_name ++ " " ++
  "starting at line " ++ toString starting_line ++ " and ending at line " ++
  toString ending_line ++ ". " ++
  context ++ " " ++
  "The code snippet starting at line " ++ toString starting_line ++
  " and ending at line " ++ toString ending_line ++ " is \n ```\n" ++
  chunkText ++ "\n``` "

/-- One iteration of the annotation loop of `process_file` (crawler.py lines
100–115): read the splitter's `start_index` from the chunk's metadata (a
missing or non-int entry is the Python `KeyError`/type failure, embedded as
`none`), resolve the line range, store `starting_line`/`ending_line` in the
metadata, and rewrite the page content. -/
def annotateDoc (fileText dir_path file_name : String) (file_summary : FileSummary)
    (doc : Document) : Option Document :=
  match lookupKey doc.metadata "start_index" with
  | some (MVal.int n) =>
    let lines := resolveLines fileText n doc.page_content
    let md := dictSet (dictSet doc.metadata "starting_line" (.int lines.1))
      "ending_line" (.int lines.2)
    let context := get_closest_method_class_in_snippet file_summary lines.1 lines.2
    some { page_content := annotationText dir_path file_name context lines.1 lines.2
             doc.page_content,
           metadata := md }
  | _ => none

/-! ### Per-file pipeline (`crawler.py`, `process_file`) -/

/-- Modelled from the spec: the per-language structural parsers imported by
`crawler.py` (`PythonParser`, `CppTreeSitterParser`, `JavaTreeSitterParser`,
`JsTreeSitterParser`, `GoTreeSitterParser`) are in modules not among the
sources; spec §4.1/§9 treats each as a capability `get_outline(text) ->
FileOutline`, so they enter as opaque-function parameters of the pipeline. -/
structure ExtParsers where
  python : String → String → FileSummary
  cpp : String → String → FileSummary
  java : String → String → FileSummary
  js : String → String → FileSummary
  go : String → String → FileSummary

/-- The extension dispatch of `process_file` (crawler.py lines 78–89):
five structurally parsed extensions, every other extension gets the fresh
empty `FileSummary()`. -/
def summaryFor (P : ExtParsers) (extension content file_name : String) : FileSummary :=
  if extension = ".py" then P.python content file_name
  else if extension = ".cpp" then P.cpp content file_name
  else if extension = ".java" then P.java content file_name
  else if extension = ".js" then P.js content file_name
  else if extension = ".go" then P.go content file_name
  else FileSummary.empty

/-- The external `RecursiveCharacterTextSplitter.from_language(...).split_documents`
collaborator (spec §6): language, chunk size, chunk overlap, documents in,
chunk documents out. -/
def SplitterFn : Type := Language → Nat → Nat → List Document → List Document

/-- `process_file` (crawler.py lines 65–117): take the first loaded document
(`file_contents[0]`, an exception on an empty list), build the file summary,
look the extension up in `LANG_MAPPING` (a missing key is the Python
`KeyError`, embedded as `none`), split, and annotate every chunk. -/
def process_file (P : ExtParsers) (split : SplitterFn) (file_contents : List Document)
    (dir_path file_name extension : String) (chunk_size chunk_overlap : Nat) :
    Option (List Document) :=
  match file_contents with
  | [] => none
  | file_doc :: _ =>
    let file_summary := summaryFor P extension file_doc.page_content file_name
    match lookupKey LANG_MAPPING extension with
    | none => none
    | some language =>
      mapOption (annotateDoc file_doc.page_content dir_path file_name file_summary)
        (split language chunk_size chunk_overlap file_contents)

/-! ### Filtering and orchestration (`crawler.py`) -/

/-- `FileProperties` (crawler.py lines 45–50). -/
structure FileProperties where
  dir_path : String
  file_name : String
  extension : String
deriving DecidableEq, Repr

/-- `contains_hidden_dir` (crawler.py lines 53–56): split the directory path
on `/` and test each component against the `fnmatch` pattern `.*`, which on
POSIX matches exactly the strings starting with a dot. -/
def contains_hidden_dir (dir_path : String) : Bool :=
  (pySplit dir_path '/').any (fun d => startsWithChar d '.')

/-- Abstract view of the filesystem as `crawler.py` observes it: the root
path, whether `os.path.isdir(root + "/.git")` holds (`is_git_dir`, an
external check), and the `os.walk` listing as (directory path, file names)
pairs in walk order. -/
structure FileSystem where
  root : String
  is_git : Bool
  walk : List (String × List String)

/-- `filter_files` (crawler.py lines 120–134): raise `ValueError` unless the
root is a git directory, then queue every walked file whose extension is a
`LANG_MAPPING` key and whose directory path contains no hidden component. -/
def filter_files (fs : FileSystem) : Except String (List FileProperties) :=
  if !fs.is_git then
    Except.error (fs.root ++ " is not a valid git root directory")
  else
    Except.ok (fs.walk.flatMap (fun e =>
      e.2.filterMap (fun file =>
        let extension := (splitext file).2
        if (lookupKey LANG_MAPPING extension).isSome && !contains_hidden_dir e.1 then
          some ⟨e.1, file, extension⟩
        else none)))

/-- `process_and_split` (crawler.py lines 137–145): load the file (the
external `TextLoader`; a load/decode failure is embedded as `none`) and run
`process_file`; any failure is caught and the file contributes `None`. -/
def process_and_split (load : String → Option (List Document)) (P : ExtParsers)
    (split : SplitterFn) (file : FileProperties) (chunk_size chunk_overlap : Nat) :
    Option (List Document) :=
  match load (os_path_join file.dir_path file.file_name) with
  | none => none
  | some contents =>
    process_file P split contents file.dir_path file.file_name file.extension
      chunk_size chunk_overlap

/-- One iteration of the aggregation loop of `crawl_and_split` (crawler.py
lines 156–160): `if docs: split_docs.extend(docs)` — a `None` result and an
empty chunk list are both falsy and contribute nothing. -/
def aggregateStep (proc : FileProperties → Option (List Document))
    (acc : List Document) (f : FileProperties) : List Document :=
  match proc f with
  | none => acc
  | some docs => if docs.isEmpty then acc else acc ++ docs

/-- The aggregation loop of `crawl_and_split` over the queued files. -/
def aggregateDocs (proc : FileProperties → Option (List Document))
    (files : List FileProperties) : List Document :=
  files.foldl (aggregateStep proc) []

/-- `crawl_and_split` (crawler.py lines 148–162): filter, then process every
queued file independently and aggregate the surviving chunk lists. -/
def crawl_and_split (load : String → Option (List Document)) (P : ExtParsers)
    (split : SplitterFn) (fs : FileSystem) (chunk_size chunk_overlap : Nat) :
    Except String (List Document) :=
  (filter_files fs).map
    (aggregateDocs (fun f => process_and_split load P split f chunk_size chunk_overlap))

/-! ### Symbol outline builder (`parsers/treesitter_parser.py`) -/

/-- A tree-sitter syntax node as `get_file_summary` consumes it: a type
string, byte offsets, (row, column) start/end points, and children. -/
inductive TSNode where
  | node (ty : String) (start_byte end_byte : Nat) (start_point end_point : Nat × Nat)
      (children : List TSNode)

/-- The node's `type` field. -/
def TSNode.ty : TSNode → String
  | .node t _ _ _ _ _ => t

/-- The node's `start_byte` field. -/
def TSNode.start_byte : TSNode → Nat
  | .node _ sb _ _ _ _ => sb

/-- The node's `end_byte` field. -/
def TSNode.end_byte : TSNode → Nat
  | .node _ _ eb _ _ _ => eb

/-- The node's `children` list. -/
def TSNode.children : TSNode → List TSNode
  | .node _ _ _ _ _ cs => cs

mutual
/-- The `traverse` closure of `get_file_summary` (treesitter_parser.py lines
56–68) on one node: on a `function_definition` (resp. `class_specifier`)
node, slice the name of `children[1]` out of the code (an out-of-range index
is the Python `IndexError`, embedded as `Except.error`) and append a
`SummaryPosition` built from `start_point[0]`/`end_point[0]`; then recurse
into the children in order. -/
def traverseNode (code : String) : TSNode → FileSummary → Except Unit FileSummary
  | TSNode.node ty _ _ sp ep children, acc =>
    match
      (if ty = "function_definition" then
        match children.get? 1 with
        | none => Except.error ()
        | some c =>
          Except.ok { acc with
            methods := acc.methods ++
              [⟨pySlice code c.start_byte c.end_byte, sp.1, ep.1⟩] }
      else Except.ok acc) with
    | Except.error e => Except.error e
    | Except.ok acc1 =>
      match
        (if ty = "class_specifier" then
          match children.get? 1 with
          | none => Except.error ()
          | some c =>
            Except.ok { acc1 with
              classes := acc1.classes ++
                [⟨pySlice code c.start_byte c.end_byte, sp.1, ep.1⟩] }
        else Except.ok acc1) with
      | Except.error e => Except.error e
      | Except.ok acc2 => traverseList code children acc2

/-- `for child in node.children: traverse(child, ...)` — left-to-right. -/
def traverseList (code : String) : List TSNode → FileSummary → Except Unit FileSummary
  | [], acc => Except.ok acc
  | n :: ns, acc =>
    match traverseNode code n acc with
    | Except.error e => Except.error e
    | Except.ok acc1 => traverseList code ns acc1
end

/-- The comparison Python's `sorted(..., key=lambda x: x.start_line)` sorts by. -/
def startLE (a b : SummaryPosition) : Prop := a.start_line ≤ b.start_line

instance : DecidableRel startLE := fun a b => Nat.decLe a.start_line b.start_line

instance : IsTotal SummaryPosition startLE := ⟨fun a b => Nat.le_total a.start_line b.start_line⟩

instance : IsTrans SummaryPosition startLE := ⟨fun _ _ _ => Nat.le_trans⟩

/-- Python's `sorted(xs, key=lambda x: x.start_line)` — a stable sort by
`start_line`, embedded as Mathlib's stable insertion sort. -/
def sortByStart (l : List SummaryPosition) : List SummaryPosition :=
  List.insertionSort startLE l

/-- `extension_to_language` (treesitter_parser.py lines 32–45). -/
def extension_to_language : List (String × String) :=
  [(".py", "python"), (".rs", "rust"), (".go", "go"), (".java", "java"),
   (".cpp", "cpp"), (".cc", "cpp"), (".cxx", "cpp"), (".c", "cpp"),
   (".h", "cpp"), (".hpp", "cpp"), (".rb", "ruby"), (".php", "php")]

/-- `TreeSitterParser.get_file_summary` (treesitter_parser.py lines 25–78):
for a supported extension, parse (the external tree-sitter parser enters as
the `parse` parameter, taking the resolved language name and the code),
traverse, and expose both outline lists sorted by `start_line`; for any
other extension return the empty `FileSummary`. -/
def get_file_summary (parse : String → String → TSNode) (code file_name : String) :
    Except Unit FileSummary :=
  match lookupKey extension_to_language (splitext file_name).2 with
  | some language =>
    match traverseNode code (parse language code) FileSummary.empty with
    | Except.error e => Except.error e
    | Except.ok fs => Except.ok ⟨sortByStart fs.methods, sortByStart fs.classes⟩
  | none => Except.ok FileSummary.empty

/-! ### Association-list lemmas -/

/-- Lookup distributes over appended association lists. -/
theorem lookupKey_append {α : Type} (m1 m2 : List (String × α)) (k : String) :
    lookupKey (m1 ++ m2) k =
      match lookupKey m1 k with
      | some v => some v
      | none => lookupKey m2 k := by
  induction m1 with
  | nil => rfl
  | cons p m1 ih =>
    by_cases hp : p.1 = k
    · simp [lookupKey, hp]
    · simpa [lookupKey, hp] using ih

/-- Updating one key in place leaves the lookup of every other key unchanged. -/
theorem lookupKey_map_update {α : Type} (m : List (String × α)) (key k : String) (v : α)
    (h : k ≠ key) :
    lookupKey (m.map (fun p => if p.1 = key then (key, v) else p)) k = lookupKey m k := by
  induction m with
  | nil => rfl
  | cons p m ih =>
    obtain ⟨a, b⟩ := p
    dsimp only [List.map_cons]
    by_cases hp : a = key
    · rw [if_pos hp]
      have hkey : ¬key = k := fun hc => h hc.symm
      have ha : ¬a = k := hp ▸ hkey
      simp only [lookupKey, if_neg hkey, if_neg ha, ih]
    · rw [if_neg hp]
      by_cases hk : a = k
      · simp only [lookupKey, if_pos hk]
      · simp only [lookupKey, if_neg hk, ih]

/-- Updating a present key in place makes its lookup return the new value. -/
theorem lookupKey_map_update_self {α : Type} (m : List (String × α)) (key : String) (v : α)
    (h : (lookupKey m key).isSome) :
    lookupKey (m.map (fun p => if p.1 = key then (key, v) else p)) key = some v := by
  induction m with
  | nil => simp [lookupKey] at h
  | cons p m ih =>
    obtain ⟨a, b⟩ := p
    dsimp only [List.map_cons]
    by_cases hp : a = key
    · rw [if_pos hp]
      simp [lookupKey]
    · rw [if_neg hp]
      have h' : (lookupKey m key).isSome := by simpa [lookupKey, hp] using h
      simp only [lookupKey, if_neg hp, ih h']

/-- After `dictSet m key v`, looking up `key` yields `v`. -/
theorem lookupKey_dictSet_self (m : List (String × MVal)) (key : String) (v : MVal) :
    lookupKey (dictSet m key v) key = some v := by
  unfold dictSet
  split
  · exact lookupKey_map_update_self m key v (by assumption)
  · rename_i hns
    have hnone : lookupKey m key = none := Option.not_isSome_iff_eq_none.mp hns
    rw [lookupKey_append, hnone]
    simp [lookupKey]

/-- After `dictSet m key v`, looking up any other key is unchanged. -/
theorem lookupKey_dictSet_other (m : List (String × MVal)) (key k : String) (v : MVal)
    (h : k ≠ key) :
    lookupKey (dictSet m key v) k = lookupKey m k := by
  unfold dictSet
  split
  · exact lookupKey_map_update m key k v h
  · rw [lookupKey_append]
    cases hm : lookupKey m k with
    | some w => rfl
    | none =>
      have hkey : ¬key = k := fun hc => h hc.symm
      simp [lookupKey, hkey]

/-! ### Claim theorems -/

/-- C1: for every original file text and every chunk with start offset `o`,
the line resolver computes `start_line` as the number of newline characters
in `text[0:o]` plus 1 (so offset 0 always gives `start_line = 1`) and
`end_line` as `start_line` plus the newline count of the chunk's own text
(so `end_line ≥ start_line` always holds). -/
theorem c1_line_resolver (text chunkText : String) (o : Nat) :
    (resolveLines text (o : Int) chunkText).1 = (text.data.take o).count '\n' + 1 ∧
    (resolveLines text (o : Int) chunkText).2 =
      (resolveLines text (o : Int) chunkText).1 + chunkText.data.count '\n' ∧
    (resolveLines text 0 chunkText).1 = 1 ∧
    (resolveLines text (o : Int) chunkText).1 ≤ (resolveLines text (o : Int) chunkText).2 := by
  refine ⟨?_, rfl, ?_, Nat.le_add_right _ _⟩
  · simp [resolveLines, pySliceTo]
  · simp [resolveLines, pySliceTo]

/-- C2: every `FileSummary` returned by the outline builder
`get_file_summary` has its `methods` and its `classes` sorted
non-decreasing by `start_line`, for every source text, file name and parsed
tree, regardless of the order in which spans were appended while
traversing. -/
theorem c2_outline_sorted (parse : String → String → TSNode) (code file_name : String)
    (fs : FileSummary) (h : get_file_summary parse code file_name = Except.ok fs) :
    List.Sorted startLE fs.methods ∧ List.Sorted startLE fs.classes := by
  unfold get_file_summary at h
  split at h
  · split at h
    · exact Except.noConfusion h
    · injection h with h
      subst h
      exact ⟨List.sorted_insertionSort startLE _, List.sorted_insertionSort startLE _⟩
  · injection h with h
    subst h
    exact ⟨List.sorted_nil, List.sorted_nil⟩

/-- An unordered two-function syntax tree, as a concrete parser output. -/
def sampleTree : TSNode :=
  .node "module" 0 10 (0, 0) (5, 0)
    [.node "function_definition" 0 5 (3, 0) (4, 0)
       [.node "def" 0 1 (3, 0) (3, 1) [], .node "identifier" 1 2 (3, 1) (3, 2) []],
     .node "function_definition" 5 9 (1, 0) (2, 0)
       [.node "def" 5 6 (1, 0) (1, 1) [], .node "identifier" 6 7 (1, 1) (1, 2) []]]

/-- A concrete syntax-tree provider returning `sampleTree`. -/
def sampleParse : String → String → TSNode := fun _ _ => sampleTree

/-- C2 witness: on a tree whose functions appear in reverse line order, the
outline comes back sorted. -/
theorem c2_outline_sorted_witness :
    get_file_summary sampleParse "abcdefghij" "x.py" =
      Except.ok ⟨[⟨"g", 1, 2⟩, ⟨"b", 3, 4⟩], []⟩ ∧
    (List.Sorted startLE ([⟨"g", 1, 2⟩, ⟨"b", 3, 4⟩] : List SummaryPosition) ∧
      List.Sorted startLE ([] : List SummaryPosition)) :=
  ⟨by decide,
    c2_outline_sorted sampleParse "abcdefghij" "x.py"
      ⟨[⟨"g", 1, 2⟩, ⟨"b", 3, 4⟩], []⟩ (by decide)⟩

/-- The annotation template as the claim states it, written from the spec's
words (no space between the newline and the opening code fence), to be
compared with `annotationText`, which is written from the source. -/
def claimedAnnotationText (dir_path file_name context : String)
    (starting_line ending_line : Nat) (chunkText : String) : String :=
  "The following code snippet is from a file at location " ++
  os_path_join dir_path file_name ++ " " ++
  "starting at line " ++ toString starting_line ++ " and ending at line " ++
  toString ending_line ++ ". " ++
  context ++ " " ++
  "The code snippet starting at line " ++ toString starting_line ++
  " and ending at line " ++ toString ending_line ++ " is \n```\n" ++
  chunkText ++ "\n``` "

set_option maxRecDepth 20000 in
/-- C3 counterexample: at a concrete resolved chunk the annotator's output
differs from the claimed template — the source's template has a space
between the newline and the opening code fence. -/
theorem c3_template_counterexample :
    annotationText "/my/file/path" "hello.py" "ctx." 1 2 "code" ≠
      claimedAnnotationText "/my/file/path" "hello.py" "ctx." 1 2 "code" := by
  decide

/-- C3 (amended): for every resolved chunk the annotator produces exactly
the claimed text, except that a space separates the newline from the opening
code fence; the context slot is filled with the resolver's string verbatim,
so an empty resolver result leaves the slot empty rather than inserting a
placeholder. -/
theorem c3_template_amended (dir_path file_name context : String)
    (starting_line ending_line : Nat) (chunkText : String) :
    annotationText dir_path file_name context starting_line ending_line chunkText =
      "The following code snippet is from a file at location " ++
      os_path_join dir_path file_name ++ " " ++
      "starting at line " ++ toString starting_line ++ " and ending at line " ++
      toString ending_line ++ ". " ++
      context ++ " " ++
      "The code snippet starting at line " ++ toString starting_line ++
      " and ending at line " ++ toString ending_line ++ " is \n ```\n" ++
      chunkText ++ "\n``` " := rfl

/-- `mapOption` succeeds when the function succeeds on every element. -/
theorem mapOption_isSome {α β : Type} (f : α → Option β) (l : List α)
    (h : ∀ x ∈ l, (f x).isSome) : (mapOption f l).isSome := by
  induction l with
  | nil => rfl
  | cons a l ih =>
    obtain ⟨b, hb⟩ := Option.isSome_iff_exists.mp (h a (List.mem_cons_self a l))
    obtain ⟨bs, hbs⟩ :=
      Option.isSome_iff_exists.mp (ih fun x hx => h x (List.mem_cons_of_mem a hx))
    simp [mapOption, hb, hbs]

/-- Annotation of one chunk succeeds whenever its metadata carries an integer
`start_index`. -/
theorem annotateDoc_isSome (fileText dir_path file_name : String)
    (file_summary : FileSummary) (d : Document) (n : Int)
    (h : lookupKey d.metadata "start_index" = some (MVal.int n)) :
    (annotateDoc fileText dir_path file_name file_summary d).isSome := by
  unfold annotateDoc
  rw [h]
  rfl

/-- C4: for every queued file whose extension is not one of the five
structurally parsed ones, the outline step yields the empty `FileSummary`
(no error), and `process_file` still chunk-processes the file: it reaches
the splitter and returns the annotated chunks. -/
theorem c4_unsupported_language (P : ExtParsers) (split : SplitterFn)
    (file_contents : List Document) (dir_path file_name extension : String)
    (chunk_size chunk_overlap : Nat) (language : Language)
    (hext : extension ∉ [".py", ".cpp", ".java", ".js", ".go"])
    (hlang : lookupKey LANG_MAPPING extension = some language)
    (hne : file_contents ≠ [])
    (hidx : ∀ d ∈ split language chunk_size chunk_overlap file_contents,
      ∃ n : Int, lookupKey d.metadata "start_index" = some (MVal.int n)) :
    (∀ content fname, summaryFor P extension content fname = FileSummary.empty) ∧
    (process_file P split file_contents dir_path file_name extension
        chunk_size chunk_overlap).isSome := by
  simp only [List.mem_cons, List.not_mem_nil, or_false, not_or] at hext
  obtain ⟨h1, h2, h3, h4, h5⟩ := hext
  constructor
  · intro content fname
    simp [summaryFor, h1, h2, h3, h4, h5]
  · cases file_contents with
    | nil => exact absurd rfl hne
    | cons fd rest =>
      unfold process_file
      rw [hlang]
      exact mapOption_isSome _ _ (fun d hd => by
        obtain ⟨n, hn⟩ := hidx d hd
        exact annotateDoc_isSome _ _ _ _ d n hn)

/-- Structural parsers always returning the empty outline (test fixture). -/
def noParsers : ExtParsers :=
  ⟨fun _ _ => FileSummary.empty, fun _ _ => FileSummary.empty, fun _ _ => FileSummary.empty,
   fun _ _ => FileSummary.empty, fun _ _ => FileSummary.empty⟩

/-- An identity splitter: one chunk per input document (test fixture). -/
def idSplit : SplitterFn := fun _ _ _ docs => docs

/-- A loaded document carrying a splitter start index (test fixture). -/
def docA : Document :=
  ⟨"line1\nline2", [("start_index", .int 0), ("source", .str "/r/x.py")]⟩

set_option maxRecDepth 20000 in
/-- C4 witness: a Markdown file is not structurally parsed, yet its chunk
processing succeeds. -/
theorem c4_unsupported_language_witness :
    ((".md" : String) ∉ [".py", ".cpp", ".java", ".js", ".go"] ∧
      lookupKey LANG_MAPPING ".md" = some Language.MARKDOWN ∧
      ([docA] : List Document) ≠ []) ∧
    ((∀ content fname, summaryFor noParsers ".md" content fname = FileSummary.empty) ∧
      (process_file noParsers idSplit [docA] "/r" "x.md" ".md" 100 0).isSome) :=
  ⟨⟨by decide, by decide, by decide⟩,
    c4_unsupported_language noParsers idSplit [docA] "/r" "x.md" ".md" 100 0
      Language.MARKDOWN (by decide) (by decide) (by decide)
      (fun d hd => ⟨0, by rw [List.mem_singleton.mp hd]; rfl⟩)⟩

/-- The aggregation fold only ever appends to its accumulator. -/
theorem aggregate_foldl_acc (proc : FileProperties → Option (List Document))
    (l : List FileProperties) (acc : List Document) :
    l.foldl (aggregateStep proc) acc = acc ++ l.foldl (aggregateStep proc) [] := by
  induction l generalizing acc with
  | nil => simp
  | cons f l ih =>
    rw [List.foldl_cons, List.foldl_cons, ih (aggregateStep proc acc f),
      ih (aggregateStep proc [] f)]
    have hstep : aggregateStep proc acc f = acc ++ aggregateStep proc [] f := by
      unfold aggregateStep
      cases proc f with
      | none => simp
      | some ds => cases ds <;> simp
    rw [hstep, List.append_assoc]

/-- C5: a failing file among the queued ones is absorbed: if the filter
queues `l1 ++ bad :: l2` and processing `bad` fails, the run still completes
(`Except.ok`) and the aggregate output is exactly the chunks of the files in
`l1` followed by those of the files in `l2` — the failing file contributes
nothing and nothing aborts. -/
theorem c5_failure_isolation (load : String → Option (List Document)) (P : ExtParsers)
    (split : SplitterFn) (fs : FileSystem) (chunk_size chunk_overlap : Nat)
    (l1 l2 : List FileProperties) (bad : FileProperties)
    (hfilter : filter_files fs = Except.ok (l1 ++ bad :: l2))
    (hbad : process_and_split load P split bad chunk_size chunk_overlap = none) :
    crawl_and_split load P split fs chunk_size chunk_overlap =
      Except.ok
        (aggregateDocs
            (fun f => process_and_split load P split f chunk_size chunk_overlap) l1 ++
          aggregateDocs
            (fun f => process_and_split load P split f chunk_size chunk_overlap) l2) := by
  unfold crawl_and_split
  rw [hfilter]
  unfold aggregateDocs
  simp only [Except.map]
  set proc := fun f => process_and_split load P split f chunk_size chunk_overlap with hproc
  rw [List.foldl_append, List.foldl_cons]
  have hpb : proc bad = none := hbad
  have hb : aggregateStep proc (List.foldl (aggregateStep proc) [] l1) bad =
      List.foldl (aggregateStep proc) [] l1 := by
    unfold aggregateStep
    rw [hpb]
  rw [hb, aggregate_foldl_acc]

/-- A three-file repository (test fixture). -/
def fsB : FileSystem := ⟨"/repo", true, [("/repo", ["a.py", "b.py", "c.py"])]⟩

/-- A loader failing on exactly one of the three files (test fixture). -/
def loadB : String → Option (List Document) := fun p =>
  if p = "/repo/b.py" then none else some [docA]

/-- C5 witness: with the middle file failing to load, the run completes and
aggregates exactly the other two files' chunks. -/
theorem c5_failure_isolation_witness :
    (filter_files fsB =
        Except.ok ([⟨"/repo", "a.py", ".py"⟩] ++
          ⟨"/repo", "b.py", ".py"⟩ :: [⟨"/repo", "c.py", ".py"⟩]) ∧
      process_and_split loadB noParsers idSplit ⟨"/repo", "b.py", ".py"⟩ 100 0 = none) ∧
    crawl_and_split loadB noParsers idSplit fsB 100 0 =
      Except.ok
        (aggregateDocs (fun f => process_and_split loadB noParsers idSplit f 100 0)
            [⟨"/repo", "a.py", ".py"⟩] ++
          aggregateDocs (fun f => process_and_split loadB noParsers idSplit f 100 0)
            [⟨"/repo", "c.py", ".py"⟩]) :=
  ⟨⟨by decide, by decide⟩,
    c5_failure_isolation loadB noParsers idSplit fsB 100 0
      [⟨"/repo", "a.py", ".py"⟩] [⟨"/repo", "c.py", ".py"⟩] ⟨"/repo", "b.py", ".py"⟩
      (by decide) (by decide)⟩

/-- C6: for a root that is not a git repository the orchestrator raises the
`ValueError` before any per-file work: the result is the error for every
loader, parser set and splitter, so no file is loaded and no chunk is
produced. -/
theorem c6_non_git_root (load : String → Option (List Document)) (P : ExtParsers)
    (split : SplitterFn) (fs : FileSystem) (chunk_size chunk_overlap : Nat)
    (h : fs.is_git = false) :
    crawl_and_split load P split fs chunk_size chunk_overlap =
      Except.error (fs.root ++ " is not a valid git root directory") := by
  unfold crawl_and_split filter_files
  rw [h]
  rfl

/-- A directory tree that is not a git repository (test fixture). -/
def fsNoGit : FileSystem := ⟨"/tmp/not-a-repo", false, [("/tmp/not-a-repo", ["main.py"])]⟩

/-- C6 witness: on a non-git root the crawl is the `ValueError`. -/
theorem c6_non_git_root_witness :
    fsNoGit.is_git = false ∧
    crawl_and_split (fun _ => some [docA]) noParsers idSplit fsNoGit 100 0 =
      Except.error (fsNoGit.root ++ " is not a valid git root directory") :=
  ⟨rfl, c6_non_git_root (fun _ => some [docA]) noParsers idSplit fsNoGit 100 0 rfl⟩

/-- C7: a walked file is queued if and only if its extension is a
`LANG_MAPPING` key and no component of its directory path is hidden. -/
theorem c7_filter_queues_iff (fs : FileSystem) (files : List FileProperties)
    (dirPath fname : String) (names : List String)
    (hok : filter_files fs = Except.ok files)
    (hwalk : (dirPath, names) ∈ fs.walk) (hmem : fname ∈ names) :
    ((⟨dirPath, fname, (splitext fname).2⟩ : FileProperties) ∈ files ↔
      ((lookupKey LANG_MAPPING (splitext fname).2).isSome = true ∧
        contains_hidden_dir dirPath = false)) := by
  unfold filter_files at hok
  by_cases hg : fs.is_git
  · simp only [hg, Bool.not_true, Bool.false_eq_true, if_false, Except.ok.injEq] at hok
    subst hok
    constructor
    · intro hin
      obtain ⟨e, he, hin2⟩ := List.mem_flatMap.mp hin
      obtain ⟨a, ha, heq⟩ := List.mem_filterMap.mp hin2
      split at heq
      · rename_i hcond
        injection heq with heq
        rw [FileProperties.mk.injEq] at heq
        obtain ⟨he1, ha1, -⟩ := heq
        subst he1
        subst ha1
        obtain ⟨hl, hh⟩ := Bool.and_eq_true_iff.mp hcond
        exact ⟨hl, by simpa using hh⟩
      · exact Option.noConfusion heq
    · rintro ⟨h1, h2⟩
      apply List.mem_flatMap.mpr
      refine ⟨(dirPath, names), hwalk, ?_⟩
      apply List.mem_filterMap.mpr
      refine ⟨fname, hmem, ?_⟩
      simp only [h1, h2]
      rfl
  · simp [hg] at hok

/-- A repository with a hidden-directory file, an unsupported-extension file
and one eligible file (test fixture). -/
def fsC : FileSystem :=
  ⟨"/repo", true,
   [("/repo", ["setup.cfg"]), ("/repo/.git/objects", ["pack.py"]),
    ("/repo/a/b", ["deep.py"])]⟩

/-- C7 witness: the `.cfg` file and the `.git/objects` file are not queued,
the `.py` file two levels deep is. -/
theorem c7_filter_queues_iff_witness :
    (filter_files fsC = Except.ok [⟨"/repo/a/b", "deep.py", ".py"⟩] ∧
      ("/repo/a/b", ["deep.py"]) ∈ fsC.walk ∧
      ("deep.py" : String) ∈ ["deep.py"] ∧
      contains_hidden_dir "/repo/.git/objects" = true ∧
      (lookupKey LANG_MAPPING (splitext "setup.cfg").2).isSome = false) ∧
    ((⟨"/repo/a/b", "deep.py", (splitext "deep.py").2⟩ : FileProperties) ∈
        [⟨"/repo/a/b", "deep.py", ".py"⟩] ↔
      ((lookupKey LANG_MAPPING (splitext "deep.py").2).isSome = true ∧
        contains_hidden_dir "/repo/a/b" = false)) :=
  ⟨⟨by decide, by decide, by decide, by decide, by decide⟩,
    c7_filter_queues_iff fsC [⟨"/repo/a/b", "deep.py", ".py"⟩] "/repo/a/b" "deep.py"
      ["deep.py"] (by decide) (by decide) (by decide)⟩

/-- C8: annotation only rewrites the chunk text; the output metadata holds
the resolved `starting_line`/`ending_line`, and the lookup of every other
metadata key — the splitter's `start_index`, the loader's `source` path, and
anything else — is exactly as in the input chunk. -/
theorem c8_metadata_frame (fileText dir_path file_name : String)
    (file_summary : FileSummary) (doc doc' : Document) (n : Int)
    (hidx : lookupKey doc.metadata "start_index" = some (MVal.int n))
    (h : annotateDoc fileText dir_path file_name file_summary doc = some doc') :
    doc'.page_content =
      annotationText dir_path file_name
        (get_closest_method_class_in_snippet file_summary
          (resolveLines fileText n doc.page_content).1
          (resolveLines fileText n doc.page_content).2)
        (resolveLines fileText n doc.page_content).1
        (resolveLines fileText n doc.page_content).2 doc.page_content ∧
    lookupKey doc'.metadata "starting_line" =
      some (MVal.int (resolveLines fileText n doc.page_content).1) ∧
    lookupKey doc'.metadata "ending_line" =
      some (MVal.int (resolveLines fileText n doc.page_content).2) ∧
    ∀ k, k ≠ "starting_line" → k ≠ "ending_line" →
      lookupKey doc'.metadata k = lookupKey doc.metadata k := by
  unfold annotateDoc at h
  rw [hidx] at h
  injection h with h
  subst h
  refine ⟨rfl, ?_, ?_, ?_⟩
  · rw [lookupKey_dictSet_other _ _ _ _ (by decide), lookupKey_dictSet_self]
  · rw [lookupKey_dictSet_self]
  · intro k hk1 hk2
    rw [lookupKey_dictSet_other _ _ _ _ hk2, lookupKey_dictSet_other _ _ _ _ hk1]

/-- The annotated form of `docA` (test fixture). -/
def docA1 : Document :=
  ⟨annotationText "/r" "x.py" "" 1 2 "line1\nline2",
   [("start_index", .int 0), ("source", .str "/r/x.py"),
    ("starting_line", .int 1), ("ending_line", .int 2)]⟩

set_option maxRecDepth 20000 in
/-- C8 witness: annotating `docA` keeps its `source` path lookup intact. -/
theorem c8_metadata_frame_witness :
    (lookupKey docA.metadata "start_index" = some (MVal.int 0) ∧
      annotateDoc "line1\nline2\nrest" "/r" "x.py" FileSummary.empty docA = some docA1) ∧
    lookupKey docA1.metadata "source" = lookupKey docA.metadata "source" :=
  ⟨⟨rfl, by decide⟩,
    (c8_metadata_frame "line1\nline2\nrest" "/r" "x.py" FileSummary.empty docA docA1 0
      rfl (by decide)).2.2.2 "source" (by decide) (by decide)⟩

/-- C9: annotating a resolved chunk is deterministic and state-free — the
output is a function of the declared inputs alone, so two runs on equal
inputs produce identical output. -/
theorem c9_annotation_deterministic (fileText₁ fileText₂ dir₁ dir₂ fname₁ fname₂ : String)
    (fs₁ fs₂ : FileSummary) (doc₁ doc₂ : Document)
    (h1 : fileText₁ = fileText₂) (h2 : dir₁ = dir₂) (h3 : fname₁ = fname₂)
    (h4 : fs₁ = fs₂) (h5 : doc₁ = doc₂) :
    annotateDoc fileText₁ dir₁ fname₁ fs₁ doc₁ =
      annotateDoc fileText₂ dir₂ fname₂ fs₂ doc₂ := by
  rw [h1, h2, h3, h4, h5]

/-- C9 witness: two runs on the same concrete chunk agree. -/
theorem c9_annotation_deterministic_witness :
    ("line1\nline2\nrest" : String) = "line1\nline2\nrest" ∧
    annotateDoc "line1\nline2\nrest" "/r" "x.py" FileSummary.empty docA =
      annotateDoc "line1\nline2\nrest" "/r" "x.py" FileSummary.empty docA :=
  ⟨rfl,
    c9_annotation_deterministic "line1\nline2\nrest" "line1\nline2\nrest" "/r" "/r"
      "x.py" "x.py" FileSummary.empty FileSummary.empty docA docA rfl rfl rfl rfl rfl⟩

/-- C10: every file the filter queues has its extension in `LANG_MAPPING`,
so the `LANG_MAPPING[extension]` lookup of `process_file` succeeds and its
`KeyError` branch is unreachable for queued files. -/
theorem c10_lang_lookup_total (fs : FileSystem) (files : List FileProperties)
    (f : FileProperties) (hok : filter_files fs = Except.ok files) (hf : f ∈ files) :
    (lookupKey LANG_MAPPING f.extension).isSome = true := by
  unfold filter_files at hok
  by_cases hg : fs.is_git
  · simp only [hg, Bool.not_true, Bool.false_eq_true, if_false, Except.ok.injEq] at hok
    subst hok
    obtain ⟨e, he, hin⟩ := List.mem_flatMap.mp hf
    obtain ⟨a, ha, heq⟩ := List.mem_filterMap.mp hin
    split at heq
    · rename_i hcond
      injection heq with heq
      subst heq
      exact (Bool.and_eq_true_iff.mp hcond).1
    · exact Option.noConfusion heq
  · simp [hg] at hok

/-- C10 witness: a queued `.py` file's extension is a `LANG_MAPPING` key. -/
theorem c10_lang_lookup_total_witness :
    (filter_files fsB =
        Except.ok [⟨"/repo", "a.py", ".py"⟩, ⟨"/repo", "b.py", ".py"⟩,
          ⟨"/repo", "c.py", ".py"⟩] ∧
      (⟨"/repo", "a.py", ".py"⟩ : FileProperties) ∈
        [(⟨"/repo", "a.py", ".py"⟩ : FileProperties), ⟨"/repo", "b.py", ".py"⟩,
          ⟨"/repo", "c.py", ".py"⟩]) ∧
    (lookupKey LANG_MAPPING (".py" : String)).isSome = true :=
  ⟨⟨by decide, by decide⟩,
    c10_lang_lookup_total fsB
      [⟨"/repo", "a.py", ".py"⟩, ⟨"/repo", "b.py", ".py"⟩, ⟨"/repo", "c.py", ".py"⟩]
      ⟨"/repo", "a.py", ".py"⟩ (by decide) (by decide)⟩

end RepoGPT
